import Mathlib

/-!
Verification development for the Python SDK type-scoring pipeline.

The repository computes a type-completeness score for each package of an
SDK catalog, reuses last-month scores when the version is unchanged,
installs the remaining packages into one shared environment in two rounds,
runs the pyright verifytypes checker on each installed package, and
persists the batch of results to a partitioned history store.

This file shallowly embeds the pure decision logic of the four source
files (helpers.py, function_app.py, run_main_typescore.py,
run_released_typescore.py).  External effects (HTTP fetches, the package
manager, the table store, the checker subprocess) are modelled as explicit
inputs: the catalog feed as a list of rows, the cache as a function from
package name to an optional entry, the checker as its exit code together
with the reports carried on stdout and on the failure object.  Where the
Python code can raise, the embedding returns Option or Except, with none
and error standing for the raised exception.
-/

namespace TypeScore

/-! ## Python string primitives

List-of-characters versions of the Python operations the sources use:
str.find (returning -1 when absent), slicing with negative indices, and
substring containment. -/

/-- Index of the first occurrence of needle in hay, if any.
Models the non-negative result of Python str.find. -/
def strFind (hay needle : List Char) : Option Nat :=
  match hay with
  | [] => if needle.isEmpty then some 0 else none
  | c :: t =>
      if needle.isPrefixOf (c :: t) then some 0
      else (strFind t needle).map (fun i => i + 1)

/-- Python str.find: index of the first occurrence, or -1. -/
def pyFindI (hay needle : List Char) : Int :=
  match strFind hay needle with
  | some i => (i : Int)
  | none => -1

/-- Python slice s[a:b] with negative-index normalization. -/
def pySlice (l : List Char) (a b : Int) : List Char :=
  let n : Int := l.length
  let norm : Int → Nat := fun i => (if i < 0 then max 0 (n + i) else min n i).toNat
  (l.take (norm b)).drop (norm a)

/-- Python substring containment: sub in s, via str.find. -/
def containsSub (s sub : List Char) : Bool :=
  (strFind s sub).isSome

/-- Python str.lower, restricted to ASCII case mapping. -/
def lowerStr (s : String) : String :=
  ⟨s.data.map Char.toLower⟩

/-- Split a character list on a separator character, Python str.split
style: the empty input gives one empty field. -/
def splitCh (sep : Char) : List Char → List (List Char)
  | [] => [[]]
  | c :: t =>
      if c = sep then [] :: splitCh sep t
      else
        match splitCh sep t with
        | [] => [[c]]
        | g :: gs => (c :: g) :: gs

/-- Python text.split with separator newline. -/
def splitLines (s : String) : List String :=
  (splitCh '\n' s.data).map (fun l => ⟨l⟩)

/-- The pip requirement spec string name==version. -/
def mkSpec (n v : String) : String := n ++ "==" ++ v

/-! ## Version model (packaging.version on the release / pre-release subset)

helpers.py line 221 compares catalog version strings with
packaging.version.parse.  The catalog publishes PEP 440 canonical
versions of the form N(.N)* optionally followed by a pre-release segment
(a, b or rc plus a number); the model implements parsing, ordering and
rendering on exactly that subset. -/

/-- A parsed version: release components plus optional pre-release
(phase 0 = a, 1 = b, 2 = rc, and its number). -/
structure PyVersion where
  release : List Nat
  pre : Option (Nat × Nat)
deriving DecidableEq, Repr

/-- Comparison of naturals as a three-way ordering. -/
def ncmp (a b : Nat) : Ordering :=
  if a < b then .lt else if b < a then .gt else .eq

/-- Comparison of all-zero padding against remaining components. -/
def zeroCmp : List Nat → Ordering
  | [] => .eq
  | b :: bs =>
      match ncmp 0 b with
      | .eq => zeroCmp bs
      | o => o

/-- Release tuples compare componentwise, the shorter padded with zeros
(PEP 440: 1.0 equals 1.0.0). -/
def relCmp : List Nat → List Nat → Ordering
  | [], m => zeroCmp m
  | a :: as_, [] =>
      match ncmp a 0 with
      | .eq => relCmp as_ []
      | o => o
  | a :: as_, b :: bs =>
      match ncmp a b with
      | .eq => relCmp as_ bs
      | o => o

/-- A pre-release sorts below the plain release; pre-releases compare
lexicographically by phase then number. -/
def preCmp : Option (Nat × Nat) → Option (Nat × Nat) → Ordering
  | none, none => .eq
  | none, some _ => .gt
  | some _, none => .lt
  | some (p1, n1), some (p2, n2) =>
      match ncmp p1 p2 with
      | .eq => ncmp n1 n2
      | o => o

/-- Three-way comparison of parsed versions. -/
def vcmp (v w : PyVersion) : Ordering :=
  match relCmp v.release w.release with
  | .eq => preCmp v.pre w.pre
  | o => o

/-- Less-or-equal on parsed versions. -/
def vle (v w : PyVersion) : Bool :=
  match vcmp v w with
  | .gt => false
  | _ => true

/-- Digits of a version component to its numeric value; none when the
component is empty or holds a non-digit. -/
def readNat (cs : List Char) : Option Nat :=
  if cs.isEmpty then none
  else if cs.all Char.isDigit then
    some (cs.foldl (fun a c => a * 10 + (c.toNat - 48)) 0)
  else none

/-- Split a character list on the dot separator. -/
def splitDots (cs : List Char) : List (List Char) :=
  splitCh '.' cs

/-- Parse the optional pre-release suffix: empty, or a / b / rc plus digits. -/
def parsePre : List Char → Option (Option (Nat × Nat))
  | [] => some none
  | 'a' :: ds => (readNat ds).map (fun n => some (0, n))
  | 'b' :: ds => (readNat ds).map (fun n => some (1, n))
  | 'r' :: 'c' :: ds => (readNat ds).map (fun n => some (2, n))
  | _ => none

/-- Parse a version string of the canonical subset. -/
def parseVer (s : String) : Option PyVersion :=
  let cs := s.data
  let rel := cs.takeWhile (fun c => c.isDigit || c == '.')
  let suf := cs.drop rel.length
  match (splitDots rel).mapM readNat, parsePre suf with
  | some rl, some pr => some ⟨rl, pr⟩
  | _, _ => none

/-- Render a parsed version back to its canonical string, as Python str
does on a parsed packaging version. -/
def verToString (v : PyVersion) : String :=
  let rel := String.intercalate "." (v.release.map Nat.repr)
  match v.pre with
  | none => rel
  | some (0, n) => rel ++ "a" ++ Nat.repr n
  | some (1, n) => rel ++ "b" ++ Nat.repr n
  | some (_, n) => rel ++ "rc" ++ Nat.repr n

/-- Embeds the latest-version computation of helpers.py lines 220-223.
Try str(max(parse(VersionGA), parse(VersionPreview))); a missing (NaN)
field makes parse raise TypeError, caught and answered with whichever raw
field is present (VersionGA when it is not the missing one).  A present
but unparseable field raises an uncaught InvalidVersion, modelled as
error. -/
def latest_version (ga preview : Option String) : Except Unit (Option String) :=
  match ga with
  | none => .ok preview
  | some g =>
      match parseVer g with
      | none => .error ()
      | some vg =>
          match preview with
          | none => .ok (some g)
          | some p =>
              match parseVer p with
              | none => .error ()
              | some vp =>
                  .ok (some (if vle vp vg then verToString vg else verToString vp))

/-! Order lemmas for the version comparison. -/

theorem ncmp_self (a : Nat) : ncmp a a = .eq := by
  simp [ncmp]

theorem relCmp_self (l : List Nat) : relCmp l l = .eq := by
  induction l with
  | nil => rfl
  | cons a t ih => simp [relCmp, ncmp_self, ih]

theorem preCmp_self (p : Option (Nat × Nat)) : preCmp p p = .eq := by
  cases p with
  | none => rfl
  | some q => cases q with
    | mk a b => simp [preCmp, ncmp_self]

theorem vcmp_self (v : PyVersion) : vcmp v v = .eq := by
  simp [vcmp, relCmp_self, preCmp_self]

theorem vle_self (v : PyVersion) : vle v v = true := by
  simp [vle, vcmp_self]

theorem ncmp_swap (a b : Nat) : ncmp a b = (ncmp b a).swap := by
  unfold ncmp
  rcases Nat.lt_trichotomy a b with h | h | h
  · rw [if_pos h, if_neg (Nat.lt_asymm h), if_pos h]; rfl
  · subst h
    simp [Nat.lt_irrefl]
    rfl
  · rw [if_neg (Nat.lt_asymm h), if_pos h, if_pos h]; rfl

theorem relCmp_nil_swap : ∀ (m : List Nat), relCmp m [] = (zeroCmp m).swap := by
  intro m
  induction m with
  | nil => rfl
  | cons b bs ih =>
      show (match ncmp b 0 with | .eq => relCmp bs [] | o => o) =
        (match ncmp 0 b with | .eq => zeroCmp bs | o => o).swap
      rw [ncmp_swap b 0]
      rcases ncmp 0 b with _ | _ | _
      · rfl
      · exact ih
      · rfl

theorem relCmp_swap : ∀ (l m : List Nat), relCmp l m = (relCmp m l).swap := by
  intro l
  induction l with
  | nil =>
      intro m
      show zeroCmp m = (relCmp m []).swap
      rw [relCmp_nil_swap m]
      rcases zeroCmp m with _ | _ | _ <;> rfl
  | cons a t ih =>
      intro m
      cases m with
      | nil =>
          show relCmp (a :: t) [] = (zeroCmp (a :: t)).swap
          exact relCmp_nil_swap (a :: t)
      | cons b bs =>
          show (match ncmp a b with | .eq => relCmp t bs | o => o) =
            (match ncmp b a with | .eq => relCmp bs t | o => o).swap
          rw [ncmp_swap a b]
          rcases ncmp b a with _ | _ | _
          · rfl
          · exact ih bs
          · rfl

theorem preCmp_swap (p q : Option (Nat × Nat)) : preCmp p q = (preCmp q p).swap := by
  cases p with
  | none =>
      cases q with
      | none => rfl
      | some y => cases y; rfl
  | some x =>
      cases x with
      | mk x1 x2 =>
          cases q with
          | none => rfl
          | some y =>
              cases y with
              | mk y1 y2 =>
                  show (match ncmp x1 y1 with | .eq => ncmp x2 y2 | o => o) =
                    (match ncmp y1 x1 with | .eq => ncmp y2 x2 | o => o).swap
                  rw [ncmp_swap x1 y1]
                  rcases ncmp y1 x1 with _ | _ | _
                  · rfl
                  · exact ncmp_swap x2 y2
                  · rfl

theorem vcmp_swap (v w : PyVersion) : vcmp v w = (vcmp w v).swap := by
  unfold vcmp
  rw [relCmp_swap v.release w.release]
  rcases relCmp w.release v.release with _ | _ | _
  · rfl
  · exact preCmp_swap v.pre w.pre
  · rfl

theorem vle_total (v w : PyVersion) : vle v w = true ∨ vle w v = true := by
  unfold vle
  rw [vcmp_swap v w]
  rcases vcmp w v with _ | _ | _
  · right; rfl
  · left; rfl
  · left; rfl

/-- C4: for a surviving catalog row the computed latestVersion is the
greater of the GA and preview fields under the version ordering (rendered
in canonical form, GA preferred on ties exactly as Python max is), and
when exactly one field is present the raw present field is returned. -/
theorem c4_latest_version (g p : String) (vg vp : PyVersion)
    (hg : parseVer g = some vg) (hp : parseVer p = some vp) :
    latest_version (some g) none = .ok (some g) ∧
    latest_version none (some p) = .ok (some p) ∧
    ∃ w, latest_version (some g) (some p) = .ok (some (verToString w)) ∧
      (w = vg ∨ w = vp) ∧ vle vg w = true ∧ vle vp w = true := by
  refine ⟨by simp [latest_version, hg], by simp [latest_version], ?_⟩
  refine ⟨if vle vp vg then vg else vp, ?_, ?_, ?_, ?_⟩
  · simp only [latest_version, hg, hp]
    by_cases h : vle vp vg = true <;> simp [h]
  · by_cases h : vle vp vg = true <;> simp [h]
  · by_cases h : vle vp vg = true
    · simp [h, vle_self]
    · simp only [h, if_neg, Bool.false_eq_true, if_false]
      rcases vle_total vp vg with h2 | h2
      · exact absurd h2 h
      · exact h2
  · by_cases h : vle vp vg = true <;> simp [h, vle_self]

/-- Witness for c4_latest_version at GA 1.2.0 and preview 2.0.0a1. -/
theorem c4_latest_version_witness :
    latest_version (some "1.2.0") none = .ok (some "1.2.0") ∧
    latest_version none (some "2.0.0a1") = .ok (some "2.0.0a1") ∧
    ∃ w, latest_version (some "1.2.0") (some "2.0.0a1") = .ok (some (verToString w)) ∧
      (w = ⟨[1, 2, 0], none⟩ ∨ w = ⟨[2, 0, 0], some (0, 1)⟩) ∧
      vle ⟨[1, 2, 0], none⟩ w = true ∧ vle ⟨[2, 0, 0], some (0, 1)⟩ w = true :=
  c4_latest_version "1.2.0" "2.0.0a1" ⟨[1, 2, 0], none⟩ ⟨[2, 0, 0], some (0, 1)⟩
    (by decide) (by decide)

/-! ## Type completeness scorer (helpers.py score_package, lines 181-203;
the same inlined logic of function_app.py test_function, lines 192-213)

The checker subprocess is modelled by its exit code together with the
report carried on standard output (exit 0) and the report carried on the
output attribute of the CalledProcessError (exit 1).  The report is the
typeCompleteness object of the parsed JSON, with the completeness score
as an exact rational. -/

/-- The typeCompleteness object of the parsed verifytypes JSON report. -/
structure Report where
  completenessScore : ℚ
  pyTypedPath : Option String
deriving DecidableEq

/-- Floor of a rational, through flooring integer division. -/
def rfloor (q : ℚ) : Int := q.num.fdiv q.den

/-- Round a rational to the nearest integer with ties to even, the
rounding Python round performs. -/
def roundHalfEven (q : ℚ) : Int :=
  let f := rfloor q
  let r := q - (f : ℚ)
  if r < 1 / 2 then f
  else if 1 / 2 < r then f + 1
  else if f % 2 = 0 then f else f + 1

/-- Python round(x, 1): round to one decimal place. -/
def pyround1 (x : ℚ) : ℚ := (roundHalfEven (x * 10) : ℚ) / 10

/-- The report variable of score_package after the try/except around the
checker invocation: bound from standard output on exit 0, bound from the
captured failure output on exit 1, and left unbound (none) on any other
exit code, where the code only logs. -/
def score_report (exitCode : Int) (stdoutReport failureReport : Report) : Option Report :=
  if exitCode = 0 then some stdoutReport
  else if exitCode = 1 then some failureReport
  else none

/-- The Score and PyTyped pair score_package derives from the report it
then unconditionally reads: none means the read happens on an unbound
local variable, so the Python raises UnboundLocalError instead of
skipping the package. -/
def score_package_outcome (exitCode : Int) (stdoutReport failureReport : Report) :
    Option (ℚ × Bool) :=
  (score_report exitCode stdoutReport failureReport).map
    (fun r => (pyround1 (r.completenessScore * 100), r.pyTypedPath.isSome))

/-- C1: at any checker exit code other than 0 and 1 the report variable
stays unbound and score_package reads it anyway, so the package is not
skipped cleanly: helpers.py raises UnboundLocalError, aborting the whole
run, and the inlined copy of function_app.py reuses the report left over
from the previously scored package.  Exhibited at exit code 2. -/
theorem c1_exit2_report_unbound :
    score_report 2 ⟨873 / 1000, some "widget_sdk/py.typed"⟩ ⟨873 / 1000, some "widget_sdk/py.typed"⟩ = none ∧
    score_package_outcome 2 ⟨873 / 1000, some "widget_sdk/py.typed"⟩ ⟨873 / 1000, some "widget_sdk/py.typed"⟩ = none := by
  constructor <;> rfl

/-- C5: for either successful exit code the persisted score is the
completeness fraction times 100 rounded to one decimal place, and the
pyTyped flag holds exactly when the pyTypedPath field is present; the
report is read from standard output on exit 0 and from the captured
failure output on exit 1. -/
theorem c5_score_derivation (exitCode : Int) (stdoutReport failureReport : Report)
    (h : exitCode = 0 ∨ exitCode = 1) :
    score_package_outcome exitCode stdoutReport failureReport =
      some (pyround1 ((if exitCode = 0 then stdoutReport else failureReport).completenessScore * 100),
        (if exitCode = 0 then stdoutReport else failureReport).pyTypedPath.isSome) := by
  rcases h with h | h <;> subst h <;> rfl

/-- Witness for c5_score_derivation: completeness 0.873 with a present
pyTypedPath at exit code 1 persists score 87.3 and pyTyped true. -/
theorem c5_score_derivation_witness :
    score_package_outcome 1 ⟨0, none⟩ ⟨873 / 1000, some "widget_sdk/py.typed"⟩ =
      some (873 / 10, true) := by
  rw [c5_score_derivation 1 ⟨0, none⟩ ⟨873 / 1000, some "widget_sdk/py.typed"⟩ (Or.inr rfl)]
  norm_num [pyround1, roundHalfEven, rfloor]

/-! ## Per-package check configuration (helpers.py is_check_enabled,
lines 159-178)

The remote pyproject lookup is modelled as an optional text: none is the
404 not-found response, some text is the fetched body.  The Python scans
each lowercased line for the flag key and the word false as plain
substrings. -/

/-- The four enabled-check flags, all enabled by default. -/
structure TypingCheck where
  mypy : Bool := true
  pyright : Bool := true
  type_check_samples : Bool := true
  verifytypes : Bool := true
deriving DecidableEq

/-- One line disables a flag when its lowercased text contains both the
flag key and the substring false. -/
def checkLine (line key : String) : Bool :=
  containsSub (lowerStr line).data key.data && containsSub (lowerStr line).data "false".data

/-- The per-line update of the flag record performed by the loop body of
is_check_enabled. -/
def checkStep (acc : TypingCheck) (line : String) : TypingCheck :=
  { mypy := if checkLine line "mypy" then false else acc.mypy,
    pyright := if checkLine line "pyright" then false else acc.pyright,
    type_check_samples := if checkLine line "type_check_samples" then false else acc.type_check_samples,
    verifytypes := if checkLine line "verifytypes" then false else acc.verifytypes }

/-- Embeds is_check_enabled: a 404 keeps every check enabled, otherwise
the response body is scanned line by line. -/
def is_check_enabled (config : Option String) : TypingCheck :=
  match config with
  | none => {}
  | some text => (splitLines text).foldl checkStep {}

theorem checkStep_fold_char (lines : List String) (acc : TypingCheck) :
    lines.foldl checkStep acc =
      ⟨acc.mypy && !(lines.any (fun l => checkLine l "mypy")),
       acc.pyright && !(lines.any (fun l => checkLine l "pyright")),
       acc.type_check_samples && !(lines.any (fun l => checkLine l "type_check_samples")),
       acc.verifytypes && !(lines.any (fun l => checkLine l "verifytypes"))⟩ := by
  induction lines generalizing acc with
  | nil => simp
  | cons l t ih =>
      rw [List.foldl_cons, ih]
      simp only [List.any_cons, checkStep, Bool.not_or, Bool.and_assoc, TypingCheck.mk.injEq]
      refine ⟨?_, ?_, ?_, ?_⟩ <;>
        by_cases h : checkLine l "mypy" <;>
          by_cases h2 : checkLine l "pyright" <;>
            by_cases h3 : checkLine l "type_check_samples" <;>
              by_cases h4 : checkLine l "verifytypes" <;>
                simp [h, h2, h3, h4]

/-- C6 (amended): a missing configuration resource keeps all four flags
enabled; with a configuration body, a flag is disabled exactly when some
line of the body, lowercased, contains both the flag key and the
substring false, and is enabled otherwise. -/
theorem c6_check_flags :
    is_check_enabled none = ⟨true, true, true, true⟩ ∧
    ∀ text : String,
      (is_check_enabled (some text)).mypy
          = !((splitLines text).any (fun l => checkLine l "mypy")) ∧
      (is_check_enabled (some text)).pyright
          = !((splitLines text).any (fun l => checkLine l "pyright")) ∧
      (is_check_enabled (some text)).type_check_samples
          = !((splitLines text).any (fun l => checkLine l "type_check_samples")) ∧
      (is_check_enabled (some text)).verifytypes
          = !((splitLines text).any (fun l => checkLine l "verifytypes")) := by
  refine ⟨rfl, fun text => ?_⟩
  show ((splitLines text).foldl checkStep {}).mypy = _ ∧
    ((splitLines text).foldl checkStep {}).pyright = _ ∧
    ((splitLines text).foldl checkStep {}).type_check_samples = _ ∧
    ((splitLines text).foldl checkStep {}).verifytypes = _
  rw [checkStep_fold_char]
  simp [TypingCheck.mypy]

/-- Strip space characters, for reading a key-equals-false line. -/
def stripSpaces (s : String) : String :=
  ⟨s.data.filter (fun c => c ≠ ' ')⟩

/-- Modelled from the spec: a flag key is explicitly set to false when
some configuration line, matched case-insensitively and ignoring spaces,
is the assignment of false to exactly that key.  The repository has no
structured parser; this definition follows the words of the spec for
comparison with is_check_enabled. -/
def specExplicitFalse (text key : String) : Bool :=
  (splitLines text).any (fun line => stripSpaces (lowerStr line) == key ++ "=false")

/-- C6 counterexample: a comment line mentioning mypy and false without
setting mypy to false still disables the mypy flag, so the flag is not
disabled exactly when its key is explicitly set to false. -/
theorem c6_counterexample :
    (is_check_enabled (some "# mypy has known false positives")).mypy = false ∧
    specExplicitFalse "# mypy has known false positives" "mypy" = false := by
  decide

/-! ## Module resolution (helpers.py get_module, lines 110-125, and
function_app.py get_module, lines 108-120)

The pip show file manifest is the input: as split lines for the
helpers.py version, which scans line by line, and as the raw response
text for the function_app.py version, which slices the whole text. -/

/-- The module-initializer file name scanned for. -/
def initMarker : List Char := "__init__.py".data

/-- The namespace marker the path is cut at. -/
def azureMarker : List Char := "azure".data

/-- The manifest header marker of the function_app.py variant. -/
def filesMarker : List Char := "Files:".data

/-- Replace path separators by dots, as the two sequential Python
replace calls do. -/
def sepsToDots (l : List Char) : List Char :=
  l.map (fun c => if c = '/' then '.' else if c = '\\' then '.' else c)

/-- Embeds helpers.py get_module: the first manifest line holding the
initializer file is sliced between the azure marker and the initializer
name; none models the UnboundLocalError raised when no line holds the
initializer file, since the substring variable is then never bound. -/
def get_module (lines : List String) : Option String :=
  match lines.find? (fun l => containsSub l.data initMarker) with
  | none => none
  | some line =>
      let cs := line.data
      let substring := pySlice cs (pyFindI cs azureMarker) (pyFindI cs initMarker)
      some ⟨(sepsToDots substring).dropLast⟩

/-- Embeds function_app.py get_module: the raw response text is sliced
from the Files: header to the initializer name and then from the azure
marker; a missing initializer makes the find calls return -1 and the
slices silently produce a leftover, so the function returns a value in
every case. -/
def get_module_fa (resp : String) : String :=
  let cs := resp.data
  let substring := pySlice cs (pyFindI cs filesMarker) (pyFindI cs initMarker)
  let module := pySlice substring (pyFindI substring azureMarker) (substring.length : Int)
  ⟨(sepsToDots module).dropLast⟩

/-- C7 (amended): the helpers.py module resolution fails, by reading the
never-bound substring variable, exactly when no manifest line holds the
initializer file name; the function_app.py variant instead always
returns a string, a garbage module name on such manifests. -/
theorem c7_no_init_fails (lines : List String) :
    get_module lines = none ↔ ∀ l ∈ lines, containsSub l.data initMarker = false := by
  unfold get_module
  cases h : lines.find? (fun l => containsSub l.data initMarker) with
  | none =>
      simp only []
      constructor
      · intro _ l hl
        have hn := List.find?_eq_none.mp h l hl
        simpa using hn
      · intro _; trivial
  | some line =>
      simp only []
      constructor
      · intro hc; cases hc
      · intro hall
        have h1 := List.find?_some h
        have h2 := List.mem_of_find?_eq_some h
        rw [hall line h2] at h1
        cases h1

/-- C7 counterexample: on a manifest with no initializer file the
function_app.py variant returns the empty string as module name instead
of failing. -/
theorem c7_counterexample :
    containsSub "Name: foo\nFiles:\n  foo.py".data initMarker = false ∧
    get_module_fa "Name: foo\nFiles:\n  foo.py" = "" := by
  decide

/-! ## Previous-month partition key (helpers.py get_last_month, lines
82-89)

The Python decrements the month, wraps December with a year decrement,
and then constructs datetime.date(year, month, today.day), which
validates its arguments and raises ValueError when the day does not
exist in that month; none models the raised ValueError. -/

/-- A Gregorian calendar date as datetime.date carries it. -/
structure PyDate where
  year : Int
  month : Nat
  day : Nat
deriving DecidableEq

/-- Gregorian leap-year rule, as datetime uses. -/
def isLeap (y : Int) : Bool :=
  y % 4 = 0 && (!(y % 100 = 0) || y % 400 = 0)

/-- Number of days of a month in a year. -/
def days_in_month (y : Int) (m : Nat) : Nat :=
  if m = 2 then (if isLeap y then 29 else 28)
  else if m = 4 ∨ m = 6 ∨ m = 9 ∨ m = 11 then 30
  else 31

/-- The argument validation datetime.date performs. -/
def validDate (d : PyDate) : Prop :=
  1 ≤ d.year ∧ d.year ≤ 9999 ∧ 1 ≤ d.month ∧ d.month ≤ 12 ∧
    1 ≤ d.day ∧ d.day ≤ days_in_month d.year d.month

instance (d : PyDate) : Decidable (validDate d) := by
  unfold validDate
  infer_instance

/-- Zero-padded two-digit rendering. -/
def pad2 (n : Nat) : String :=
  if n < 10 then "0" ++ Nat.repr n else Nat.repr n

/-- Zero-padded four-digit rendering. -/
def pad4 (n : Nat) : String :=
  if n < 10 then "000" ++ Nat.repr n
  else if n < 100 then "00" ++ Nat.repr n
  else if n < 1000 then "0" ++ Nat.repr n
  else Nat.repr n

/-- ISO rendering of a date, as Python str on a date. -/
def isoStr (y : Int) (m d : Nat) : String :=
  pad4 y.toNat ++ "-" ++ pad2 m ++ "-" ++ pad2 d

/-- The year and month one month before, as get_last_month computes
them: decrement the month and wrap January to December of the previous
year. -/
def prevYM (today : PyDate) : Int × Nat :=
  if today.month - 1 = 0 then (today.year - 1, 12) else (today.year, today.month - 1)

/-- Embeds get_last_month: build the previous-month year and month, then
construct the date with the unchanged day-of-month; none models the
ValueError that datetime.date raises on out-of-range arguments. -/
def get_last_month (today : PyDate) : Option String :=
  if 1 ≤ (prevYM today).1 ∧ (prevYM today).1 ≤ 9999 ∧ 1 ≤ (prevYM today).2 ∧
      (prevYM today).2 ≤ 12 ∧ 1 ≤ today.day ∧
      today.day ≤ days_in_month (prevYM today).1 (prevYM today).2 then
    some (isoStr (prevYM today).1 (prevYM today).2 today.day)
  else none

/-- C10: get_last_month is partial: for a valid run date (year at least
2) it raises exactly when the day-of-month does not exist in the
previous month, and otherwise returns the same day-of-month in the
previous month, the year decremented when the input month is January. -/
theorem c10_get_last_month (t : PyDate) (hv : validDate t) (hy : 2 ≤ t.year) :
    (get_last_month t = none ↔ days_in_month (prevYM t).1 (prevYM t).2 < t.day) ∧
    (get_last_month t = some (isoStr (prevYM t).1 (prevYM t).2 t.day) ↔
      t.day ≤ days_in_month (prevYM t).1 (prevYM t).2) ∧
    (t.month = 1 → prevYM t = (t.year - 1, 12)) ∧
    (2 ≤ t.month → prevYM t = (t.year, t.month - 1)) := by
  obtain ⟨hy1, hy2, hm1, hm2, hd1, hd2⟩ := hv
  have hb : 1 ≤ (prevYM t).1 ∧ (prevYM t).1 ≤ 9999 ∧ 1 ≤ (prevYM t).2 ∧ (prevYM t).2 ≤ 12 := by
    unfold prevYM
    by_cases h : t.month - 1 = 0 <;> simp only [h, if_true, if_false] <;> constructor <;> omega
  refine ⟨?_, ?_, ?_, ?_⟩
  · unfold get_last_month
    by_cases hle : t.day ≤ days_in_month (prevYM t).1 (prevYM t).2
    · rw [if_pos ⟨hb.1, hb.2.1, hb.2.2.1, hb.2.2.2, hd1, hle⟩]
      constructor
      · intro hc; cases hc
      · intro hc; omega
    · rw [if_neg (by intro hc; exact hle hc.2.2.2.2.2)]
      constructor
      · intro _; omega
      · intro _; rfl
  · unfold get_last_month
    by_cases hle : t.day ≤ days_in_month (prevYM t).1 (prevYM t).2
    · rw [if_pos ⟨hb.1, hb.2.1, hb.2.2.1, hb.2.2.2, hd1, hle⟩]
      constructor
      · intro _; exact hle
      · intro _; rfl
    · rw [if_neg (by intro hc; exact hle hc.2.2.2.2.2)]
      constructor
      · intro hc; cases hc
      · intro hc; exact absurd hc hle
  · intro h1
    unfold prevYM
    rw [h1]
    rfl
  · intro h2
    unfold prevYM
    rw [if_neg (by omega)]

/-- Witness for c10_get_last_month at 2023-03-31: February 2023 has 28
days, so the previous-month lookup date raises and the cache lookup for
that run date cannot be performed. -/
theorem c10_get_last_month_witness :
    (get_last_month ⟨2023, 3, 31⟩ = none ↔
      days_in_month (prevYM ⟨2023, 3, 31⟩).1 (prevYM ⟨2023, 3, 31⟩).2 < (31 : Nat)) ∧
    (get_last_month ⟨2023, 3, 31⟩ =
        some (isoStr (prevYM ⟨2023, 3, 31⟩).1 (prevYM ⟨2023, 3, 31⟩).2 31) ↔
      (31 : Nat) ≤ days_in_month (prevYM ⟨2023, 3, 31⟩).1 (prevYM ⟨2023, 3, 31⟩).2) ∧
    ((3 : Nat) = 1 → prevYM ⟨2023, 3, 31⟩ = (2022, 12)) ∧
    ((2 : Nat) ≤ 3 → prevYM ⟨2023, 3, 31⟩ = (2023, 2)) :=
  c10_get_last_month ⟨2023, 3, 31⟩ (by decide) (by decide)

/-! ## Catalog builder (helpers.py get_packages_to_score, lines 206-233)

The catalog feed is the list of parsed CSV rows; a none package name is
the NaN float pandas yields for a missing cell.  The ignore policy lists
and the per-package configuration fetch are explicit inputs. -/

/-- One catalog feed row. -/
structure Row where
  package : Option String
  versionGA : Option String
  versionPreview : Option String
  repoPath : Option String
deriving DecidableEq

/-- The work-set record built for one surviving row. -/
structure Details where
  latestVersion : Option String
  pyright : Bool
  mypy : Bool
  samples : Bool
  verifytypes : Bool
  date : PyDate
deriving DecidableEq

/-- Embeds is_ignored_package (helpers.py lines 74-79): exact-name
ignore set, then substring filter unless the name is exempted. -/
def is_ignored_package (ign fexc ifil : List String) (name : String) : Bool :=
  if ign.contains name then true
  else if !(fexc.contains name) && ifil.any (fun idf => containsSub name.data idf.data) then true
  else false

/-- The fields stored for one surviving row: the latest version (whose
computation can raise InvalidVersion, modelled as error), the four check
flags from the configuration fetch keyed by RepoPath/Package, and the
run date. -/
def mkDetails (cfg : String → Option String) (today : PyDate) (r : Row) (name : String) :
    Except Unit Details :=
  match latest_version r.versionGA r.versionPreview with
  | .error e => .error e
  | .ok lv =>
      let en := is_check_enabled (cfg ((r.repoPath.getD "nan") ++ "/" ++ name))
      .ok ⟨lv, en.pyright, en.mypy, en.type_check_samples, en.verifytypes, today⟩

/-- The row loop of get_packages_to_score: skip a row when the name is
missing, ignored, or already present, otherwise append the record built
for it.  The accumulator is the insertion-ordered work set. -/
def buildPkgs (ign fexc ifil : List String) (cfg : String → Option String) (today : PyDate) :
    List Row → List (String × Details) → Except Unit (List (String × Details))
  | [], acc => .ok acc
  | r :: rs, acc =>
      match r.package with
      | none => buildPkgs ign fexc ifil cfg today rs acc
      | some name =>
          if is_ignored_package ign fexc ifil name || (acc.map Prod.fst).contains name then
            buildPkgs ign fexc ifil cfg today rs acc
          else
            (mkDetails cfg today r name).bind
              (fun d => buildPkgs ign fexc ifil cfg today rs (acc ++ [(name, d)]))

/-- Embeds get_packages_to_score on a given feed. -/
def get_packages_to_score (ign fexc ifil : List String) (cfg : String → Option String)
    (today : PyDate) (rows : List Row) : Except Unit (List (String × Details)) :=
  buildPkgs ign fexc ifil cfg today rows []

theorem buildPkgs_cons_none (ign fexc ifil : List String) (cfg : String → Option String)
    (today : PyDate) (r : Row) (rs : List Row) (acc : List (String × Details))
    (hp : r.package = none) :
    buildPkgs ign fexc ifil cfg today (r :: rs) acc =
      buildPkgs ign fexc ifil cfg today rs acc := by
  show (match r.package with
    | none => buildPkgs ign fexc ifil cfg today rs acc
    | some name =>
        if is_ignored_package ign fexc ifil name || (acc.map Prod.fst).contains name then
          buildPkgs ign fexc ifil cfg today rs acc
        else
          (mkDetails cfg today r name).bind
            (fun d => buildPkgs ign fexc ifil cfg today rs (acc ++ [(name, d)]))) =
    buildPkgs ign fexc ifil cfg today rs acc
  rw [hp]

theorem buildPkgs_cons_some (ign fexc ifil : List String) (cfg : String → Option String)
    (today : PyDate) (r : Row) (rs : List Row) (acc : List (String × Details))
    (name : String) (hp : r.package = some name) :
    buildPkgs ign fexc ifil cfg today (r :: rs) acc =
      (if is_ignored_package ign fexc ifil name || (acc.map Prod.fst).contains name then
        buildPkgs ign fexc ifil cfg today rs acc
      else
        (mkDetails cfg today r name).bind
          (fun d => buildPkgs ign fexc ifil cfg today rs (acc ++ [(name, d)]))) := by
  show (match r.package with
    | none => buildPkgs ign fexc ifil cfg today rs acc
    | some name =>
        if is_ignored_package ign fexc ifil name || (acc.map Prod.fst).contains name then
          buildPkgs ign fexc ifil cfg today rs acc
        else
          (mkDetails cfg today r name).bind
            (fun d => buildPkgs ign fexc ifil cfg today rs (acc ++ [(name, d)]))) = _
  rw [hp]

theorem contains_true_of_mem {l : List String} {a : String} (h : a ∈ l) :
    l.contains a = true :=
  List.elem_iff.mpr h

theorem mem_of_contains_true {l : List String} {a : String} (h : l.contains a = true) :
    a ∈ l :=
  List.elem_iff.mp h

theorem buildPkgs_nodup (ign fexc ifil : List String) (cfg : String → Option String)
    (today : PyDate) :
    ∀ (rows : List Row) (acc m : List (String × Details)),
      (acc.map Prod.fst).Nodup →
      buildPkgs ign fexc ifil cfg today rows acc = .ok m →
      (m.map Prod.fst).Nodup := by
  intro rows
  induction rows with
  | nil =>
      intro acc m hacc h
      cases h
      exact hacc
  | cons r rs ih =>
      intro acc m hacc h
      cases hp : r.package with
      | none =>
          rw [buildPkgs_cons_none ign fexc ifil cfg today r rs acc hp] at h
          exact ih acc m hacc h
      | some name =>
          rw [buildPkgs_cons_some ign fexc ifil cfg today r rs acc name hp] at h
          by_cases hg : (is_ignored_package ign fexc ifil name
              || (acc.map Prod.fst).contains name) = true
          · rw [if_pos hg] at h
            exact ih acc m hacc h
          · rw [if_neg hg] at h
            cases hd : mkDetails cfg today r name with
            | error e => simp only [hd, Except.bind] at h; cases h
            | ok d =>
                simp only [hd, Except.bind] at h
                refine ih (acc ++ [(name, d)]) m ?_ h
                have hnm : name ∉ acc.map Prod.fst := by
                  intro hmem
                  exact hg (Bool.or_eq_true_iff.mpr (Or.inr (contains_true_of_mem hmem)))
                simp [List.nodup_append, hacc, hnm]

theorem buildPkgs_first_data (ign fexc ifil : List String) (cfg : String → Option String)
    (today : PyDate) :
    ∀ (rows : List Row) (acc m : List (String × Details)),
      buildPkgs ign fexc ifil cfg today rows acc = .ok m →
      ∀ n d, (n, d) ∈ m →
        (n, d) ∈ acc ∨
        (n ∉ acc.map Prod.fst ∧ is_ignored_package ign fexc ifil n = false ∧
          ∃ r, rows.find? (fun row => row.package == some n) = some r ∧
            mkDetails cfg today r n = .ok d) := by
  intro rows
  induction rows with
  | nil =>
      intro acc m h n d hm
      cases h
      exact Or.inl hm
  | cons r rs ih =>
      intro acc m h n d hm
      cases hp : r.package with
      | none =>
          rw [buildPkgs_cons_none ign fexc ifil cfg today r rs acc hp] at h
          rcases ih acc m h n d hm with hl | ⟨h1, h2, rr, hfind, hmk⟩
          · exact Or.inl hl
          · refine Or.inr ⟨h1, h2, rr, ?_, hmk⟩
            rw [List.find?_cons_of_neg _ (by simp [hp]), hfind]
      | some name =>
          rw [buildPkgs_cons_some ign fexc ifil cfg today r rs acc name hp] at h
          by_cases hg : (is_ignored_package ign fexc ifil name
              || (acc.map Prod.fst).contains name) = true
          · rw [if_pos hg] at h
            rcases ih acc m h n d hm with hl | ⟨h1, h2, rr, hfind, hmk⟩
            · exact Or.inl hl
            · refine Or.inr ⟨h1, h2, rr, ?_, hmk⟩
              have hne : name ≠ n := by
                intro he
                subst he
                rcases Bool.or_eq_true_iff.mp hg with hig | hmem
                · rw [hig] at h2; cases h2
                · exact h1 (mem_of_contains_true hmem)
              rw [List.find?_cons_of_neg _ (by simp [hp, hne]), hfind]
          · rw [if_neg hg] at h
            have hgf := Bool.or_eq_false_iff.mp ((Bool.not_eq_true _).mp hg)
            have hnig : is_ignored_package ign fexc ifil name = false := hgf.1
            have hnmem : name ∉ acc.map Prod.fst := by
              intro hmem
              rw [contains_true_of_mem hmem] at hgf
              cases hgf.2
            cases hd : mkDetails cfg today r name with
            | error e => simp only [hd, Except.bind] at h; cases h
            | ok dd =>
                simp only [hd, Except.bind] at h
                rcases ih (acc ++ [(name, dd)]) m h n d hm with hl | ⟨h1, h2, rr, hfind, hmk⟩
                · rcases List.mem_append.mp hl with hl2 | hl2
                  · exact Or.inl hl2
                  · have he : n = name ∧ d = dd := by
                      simpa using hl2
                    refine Or.inr ⟨?_, ?_, r, ?_, ?_⟩
                    · rw [he.1]; exact hnmem
                    · rw [he.1]; exact hnig
                    · rw [List.find?_cons_of_pos _ (by simp [hp, he.1])]
                    · rw [he.1, he.2]; exact hd
                · have hne : name ≠ n := by
                    intro he
                    subst he
                    exact h1 (by simp)
                  refine Or.inr ⟨fun hc => h1 (by simp [hc]), h2, rr, ?_, hmk⟩
                  rw [List.find?_cons_of_neg _ (by simp [hp, hne]), hfind]

/-- C8: the work set built from the catalog feed holds each package name
at most once; every entry is a non-ignored name whose record was built
from the first feed row carrying that name. -/
theorem c8_catalog_dedup (ign fexc ifil : List String) (cfg : String → Option String)
    (today : PyDate) (rows : List Row) (m : List (String × Details))
    (h : get_packages_to_score ign fexc ifil cfg today rows = .ok m) :
    (m.map Prod.fst).Nodup ∧
    ∀ n d, (n, d) ∈ m →
      is_ignored_package ign fexc ifil n = false ∧
      ∃ r, rows.find? (fun row => row.package == some n) = some r ∧
        mkDetails cfg today r n = .ok d := by
  constructor
  · exact buildPkgs_nodup ign fexc ifil cfg today rows [] m (by simp) h
  · intro n d hm
    rcases buildPkgs_first_data ign fexc ifil cfg today rows [] m h n d hm with hl | hr
    · cases hl
    · exact ⟨hr.2.1, hr.2.2⟩

/-- Witness for c8_catalog_dedup: a feed where widget-sdk appears twice
keeps only the first occurrence, and both records come from the first
row of their name. -/
theorem c8_catalog_dedup_witness :
    (([("widget-sdk",
        (⟨some "3.1.0", true, true, true, true, ⟨2023, 6, 15⟩⟩ : Details)),
       ("other", ⟨some "1.0.0a1", true, true, true, true, ⟨2023, 6, 15⟩⟩)].map
        Prod.fst).Nodup) ∧
    ∀ n d, (n, d) ∈
        [("widget-sdk",
          (⟨some "3.1.0", true, true, true, true, ⟨2023, 6, 15⟩⟩ : Details)),
         ("other", ⟨some "1.0.0a1", true, true, true, true, ⟨2023, 6, 15⟩⟩)] →
      is_ignored_package [] [] [] n = false ∧
      ∃ r, [(⟨some "widget-sdk", some "3.1.0", none, some "sdk/widget"⟩ : Row),
            ⟨some "widget-sdk", some "9.9.9", none, some "sdk/widget"⟩,
            ⟨some "other", none, some "1.0.0a1", none⟩].find?
              (fun row => row.package == some n) = some r ∧
        mkDetails (fun _ => none) ⟨2023, 6, 15⟩ r n = .ok d :=
  c8_catalog_dedup [] [] [] (fun _ => none) ⟨2023, 6, 15⟩
    [⟨some "widget-sdk", some "3.1.0", none, some "sdk/widget"⟩,
     ⟨some "widget-sdk", some "9.9.9", none, some "sdk/widget"⟩,
     ⟨some "other", none, some "1.0.0a1", none⟩]
    [("widget-sdk", ⟨some "3.1.0", true, true, true, true, ⟨2023, 6, 15⟩⟩),
     ("other", ⟨some "1.0.0a1", true, true, true, true, ⟨2023, 6, 15⟩⟩)]
    (by rfl)

/-! ## Released pipeline (run_released_typescore.py)

The table client is modelled as a function from package name to the
optional cached entry of the previous-month partition: none covers both
the not-found case and any other HttpResponseError, which the code
catches alike.  The checker outcome for a fresh package is an oracle
giving its score and pyTyped pair; its internals are the scorer model
above.  A run is the list of environment and persistence events the code
issues, in order; none models the KeyError crash when azure-core is not
in the work set. -/

/-- One cached history entry as the released pipeline reads it. -/
structure CacheEntry where
  latestVersion : String
  score : ℚ
  pyTyped : Bool
deriving DecidableEq

/-- The pyright pin helpers.py install appends to every batch. -/
def pyrightSpec : String := "pyright==1.1.287"

/-- The azure-core conflicting extensions uninstalled before its scoring
(run_released_typescore.py line 72). -/
def coreDeps : List String :=
  ["azure-core-experimental", "azure-core-tracing-opencensus",
   "azure-core-tracing-opentelemetry"]

/-- Embeds get_released_installs (lines 29-46): walk the work set; on a
cache hit with equal latestVersion copy score and pyTyped onto the
record and skip the install, otherwise leave the record fresh and append
the package to the install list.  Returns the updated records and the
install list as name and version pairs. -/
def get_released_installs (pkgs : List (String × String))
    (cache : String → Option CacheEntry) :
    List (String × String × Option (ℚ × Bool)) × List (String × String) :=
  pkgs.foldl
    (fun acc p =>
      match cache p.1 with
      | some e =>
          if e.latestVersion = p.2 then
            (acc.1 ++ [(p.1, p.2, some (e.score, e.pyTyped))], acc.2)
          else
            (acc.1 ++ [(p.1, p.2, none)], acc.2 ++ [p])
      | none => (acc.1 ++ [(p.1, p.2, none)], acc.2 ++ [p]))
    ([], [])

/-- The reuse decision for one package: the copied score and pyTyped on
a version-matching cache hit, none otherwise. -/
def reuseOf (cache : String → Option CacheEntry) (n v : String) : Option (ℚ × Bool) :=
  match cache n with
  | some e => if e.latestVersion = v then some (e.score, e.pyTyped) else none
  | none => none

/-- One observable event of a released-pipeline run. -/
inductive REvent where
  | install (args : List String)
  | uninstall (deps : List String)
  | check (package : String)
  | persist (name : String) (latestVersion : String) (score : ℚ) (pyTyped : Bool)
deriving DecidableEq

/-- The bulk install invocation of helpers.py install: skipped on an
empty list, the pyright pin appended otherwise. -/
def relInstallEvents (inst : List (String × String)) : List REvent :=
  if inst.isEmpty then []
  else [REvent.install (inst.map (fun p => mkSpec p.1 p.2) ++ [pyrightSpec])]

/-- The per-package loop of released_typescore_function: azure-core is
skipped, a reused record is persisted without a check, a fresh record is
checked and then persisted. -/
def relLoopEvents (checker : String → ℚ × Bool)
    (recs : List (String × String × Option (ℚ × Bool))) : List REvent :=
  recs.flatMap
    (fun u =>
      if u.1 = "azure-core" then []
      else
        match u.2.2 with
        | some sp => [REvent.persist u.1 u.2.1 sp.1 sp.2]
        | none => [REvent.check u.1,
            REvent.persist u.1 u.2.1 (checker u.1).1 (checker u.1).2])

/-- Embeds released_typescore_function (lines 53-74): the bulk install
of the fresh packages, the per-package loop, then the azure-core special
case: uninstall its conflicting extensions and check and persist it
unconditionally.  none models the KeyError when azure-core is not in the
work set. -/
def released_run (pkgs : List (String × String)) (cache : String → Option CacheEntry)
    (checker : String → ℚ × Bool) : Option (List REvent) :=
  ((get_released_installs pkgs cache).1.find? (fun t => t.1 == "azure-core")).map
    (fun t =>
      relInstallEvents (get_released_installs pkgs cache).2 ++
      relLoopEvents checker (get_released_installs pkgs cache).1 ++
      [REvent.uninstall coreDeps, REvent.check "azure-core",
       REvent.persist "azure-core" t.2.1 (checker "azure-core").1
         (checker "azure-core").2])

theorem get_released_installs_char (pkgs : List (String × String))
    (cache : String → Option CacheEntry) :
    get_released_installs pkgs cache =
      (pkgs.map (fun p => (p.1, p.2, reuseOf cache p.1 p.2)),
       pkgs.filter (fun p => (reuseOf cache p.1 p.2).isNone)) := by
  have haux : ∀ (l : List (String × String))
      (acc : List (String × String × Option (ℚ × Bool)) × List (String × String)),
      l.foldl
        (fun acc p =>
          match cache p.1 with
          | some e =>
              if e.latestVersion = p.2 then
                (acc.1 ++ [(p.1, p.2, some (e.score, e.pyTyped))], acc.2)
              else
                (acc.1 ++ [(p.1, p.2, none)], acc.2 ++ [p])
          | none => (acc.1 ++ [(p.1, p.2, none)], acc.2 ++ [p])) acc =
        (acc.1 ++ l.map (fun p => (p.1, p.2, reuseOf cache p.1 p.2)),
         acc.2 ++ l.filter (fun p => (reuseOf cache p.1 p.2).isNone)) := by
    intro l
    induction l with
    | nil => intro acc; simp
    | cons p t ih =>
        intro acc
        rw [List.foldl_cons]
        cases hc : cache p.1 with
        | none =>
            have hr : reuseOf cache p.1 p.2 = none := by simp [reuseOf, hc]
            simp only [hc, ih, List.map_cons, List.filter_cons, hr]
            simp
        | some e =>
            by_cases hv : e.latestVersion = p.2
            · have hr : reuseOf cache p.1 p.2 = some (e.score, e.pyTyped) := by
                simp [reuseOf, hc, hv]
              simp only [hc, if_pos hv, ih, List.map_cons, List.filter_cons, hr]
              simp
            · have hr : reuseOf cache p.1 p.2 = none := by
                simp [reuseOf, hc, hv]
              simp only [hc, if_neg hv, ih, List.map_cons, List.filter_cons, hr]
              simp
  unfold get_released_installs
  rw [haux]
  simp

theorem nodup_key_eq {l : List (String × String)} (h : (l.map Prod.fst).Nodup)
    {n a b : String} (ha : (n, a) ∈ l) (hb : (n, b) ∈ l) : a = b := by
  induction l with
  | nil => cases ha
  | cons x t ih =>
      rw [List.map_cons] at h
      have hnd := List.nodup_cons.mp h
      rcases List.mem_cons.mp ha with ha1 | ha1 <;> rcases List.mem_cons.mp hb with hb1 | hb1
      · have he : ((n, a) : String × String) = (n, b) := ha1.trans hb1.symm
        simpa using he
      · exfalso
        have hmem : n ∈ t.map Prod.fst := List.mem_map.mpr ⟨(n, b), hb1, rfl⟩
        have hx1 : x.1 = n := by rw [← ha1]
        rw [hx1] at hnd
        exact hnd.1 hmem
      · exfalso
        have hmem : n ∈ t.map Prod.fst := List.mem_map.mpr ⟨(n, a), ha1, rfl⟩
        have hx1 : x.1 = n := by rw [← hb1]
        rw [hx1] at hnd
        exact hnd.1 hmem
      · exact ih hnd.2 ha1 hb1

/-- C2 (amended): a package with a version-matching cached entry, other
than azure-core, is excluded from the bulk install, is never checked,
and the record persisted for it carries the cached score and pyTyped
verbatim.  azure-core is always rechecked, even on a matching cache hit. -/
theorem c2_cache_reuse (pkgs : List (String × String)) (cache : String → Option CacheEntry)
    (checker : String → ℚ × Bool) (n v : String) (e : CacheEntry) (tr : List REvent)
    (hnodup : (pkgs.map Prod.fst).Nodup) (hn : n ≠ "azure-core")
    (hmem : (n, v) ∈ pkgs) (hc : cache n = some e) (hv : e.latestVersion = v)
    (hrun : released_run pkgs cache checker = some tr) :
    n ∉ (get_released_installs pkgs cache).2.map Prod.fst ∧
    REvent.check n ∉ tr ∧
    REvent.persist n v e.score e.pyTyped ∈ tr := by
  have hr : reuseOf cache n v = some (e.score, e.pyTyped) := by
    simp [reuseOf, hc, hv]
  have hchar := get_released_installs_char pkgs cache
  have hinst : n ∉ (get_released_installs pkgs cache).2.map Prod.fst := by
    rw [hchar]
    intro hmem2
    rcases List.mem_map.mp hmem2 with ⟨q, hq, hq1⟩
    rcases List.mem_filter.mp hq with ⟨hq2, hq3⟩
    have hq4 : (n, q.2) ∈ pkgs := by
      rw [← hq1]
      simpa using hq2
    have hv2 : q.2 = v := nodup_key_eq hnodup hq4 hmem
    rw [hq1, hv2, hr] at hq3
    simp at hq3
  refine ⟨hinst, ?_, ?_⟩
  · intro hck
    unfold released_run at hrun
    cases hfind : (get_released_installs pkgs cache).1.find? (fun t => t.1 == "azure-core") with
    | none => rw [hfind] at hrun; cases hrun
    | some t =>
        rw [hfind, Option.map_some'] at hrun
        have htr := (Option.some.injEq _ _ |>.mp hrun)
        rw [← htr] at hck
        rcases List.mem_append.mp hck with hck1 | hck1
        · rcases List.mem_append.mp hck1 with hck2 | hck2
          · unfold relInstallEvents at hck2
            by_cases hemp : (get_released_installs pkgs cache).2.isEmpty
            · rw [if_pos hemp] at hck2; cases hck2
            · rw [if_neg hemp] at hck2
              cases List.mem_singleton.mp hck2
          · rcases List.mem_flatMap.mp hck2 with ⟨u, hu, hue⟩
            by_cases hcore : u.1 = "azure-core"
            · rw [if_pos hcore] at hue; cases hue
            · rw [if_neg hcore] at hue
              cases hsp : u.2.2 with
              | some sp =>
                  rw [hsp] at hue
                  cases List.mem_singleton.mp hue
              | none =>
                  rw [hsp] at hue
                  have hu1 : u.1 = n := by
                    rcases List.mem_cons.mp hue with hue1 | hue1
                    · injection hue1 with h2
                      exact h2.symm
                    · cases List.mem_singleton.mp hue1
                  rw [hchar] at hu
                  rcases List.mem_map.mp hu with ⟨q, hq, hq1⟩
                  have hq2 : q.1 = n := by rw [← hu1, ← hq1]
                  have hq4 : (n, q.2) ∈ pkgs := by
                    rw [← hq2]
                    simpa using hq
                  have hqv : q.2 = v := nodup_key_eq hnodup hq4 hmem
                  have hu22 : u.2.2 = some (e.score, e.pyTyped) := by
                    rw [← hq1]
                    show reuseOf cache q.1 q.2 = some (e.score, e.pyTyped)
                    rw [hq2, hqv]
                    exact hr
                  rw [hsp] at hu22
                  cases hu22
        · simp only [List.mem_cons, List.mem_singleton] at hck1
          rcases hck1 with h1 | h1 | h1 | h1
          · cases h1
          · injection h1 with h2
            exact hn h2
          · cases h1
          · cases h1
  · unfold released_run at hrun
    cases hfind : (get_released_installs pkgs cache).1.find? (fun t => t.1 == "azure-core") with
    | none => rw [hfind] at hrun; cases hrun
    | some t =>
        rw [hfind, Option.map_some'] at hrun
        have htr := (Option.some.injEq _ _ |>.mp hrun)
        rw [← htr]
        refine List.mem_append.mpr (Or.inl (List.mem_append.mpr (Or.inr ?_)))
        refine List.mem_flatMap.mpr ⟨(n, v, some (e.score, e.pyTyped)), ?_, ?_⟩
        · rw [hchar]
          refine List.mem_map.mpr ⟨(n, v), hmem, ?_⟩
          rw [hr]
        · rw [if_neg hn]
          simp

/-- Witness for c2_cache_reuse: package foo with a matching cached entry
is reused verbatim while azure-core is freshly scored. -/
theorem c2_cache_reuse_witness :
    "foo" ∉ (get_released_installs [("foo", "1.0"), ("azure-core", "1.26.0")]
      (fun u => if u = "foo" then some ⟨"1.0", 95, true⟩ else none)).2.map Prod.fst ∧
    REvent.check "foo" ∉
      [REvent.install [mkSpec "azure-core" "1.26.0", pyrightSpec],
       REvent.persist "foo" "1.0" 95 true,
       REvent.uninstall coreDeps, REvent.check "azure-core",
       REvent.persist "azure-core" "1.26.0" 80 false] ∧
    REvent.persist "foo" "1.0" 95 true ∈
      [REvent.install [mkSpec "azure-core" "1.26.0", pyrightSpec],
       REvent.persist "foo" "1.0" 95 true,
       REvent.uninstall coreDeps, REvent.check "azure-core",
       REvent.persist "azure-core" "1.26.0" 80 false] :=
  c2_cache_reuse [("foo", "1.0"), ("azure-core", "1.26.0")]
    (fun u => if u = "foo" then some ⟨"1.0", 95, true⟩ else none)
    (fun _ => (80, false)) "foo" "1.0" ⟨"1.0", 95, true⟩ _
    (by decide) (by decide) (by decide) (by decide) (by decide) (by decide)

/-- C2 counterexample: azure-core with a version-matching cached entry
carrying score 95 is nevertheless checked again and persisted with the
fresh checker result 80, so the claim fails on azure-core. -/
theorem c2_counterexample :
    released_run [("azure-core", "1.26.0")]
        (fun u => if u = "azure-core" then some ⟨"1.26.0", 95, true⟩ else none)
        (fun _ => (80, false)) =
      some [REvent.uninstall coreDeps, REvent.check "azure-core",
            REvent.persist "azure-core" "1.26.0" 80 false] ∧
    REvent.check "azure-core" ∈
      [REvent.uninstall coreDeps, REvent.check "azure-core",
       REvent.persist "azure-core" "1.26.0" 80 false] ∧
    REvent.persist "azure-core" "1.26.0" 95 true ∉
      [REvent.uninstall coreDeps, REvent.check "azure-core",
       REvent.persist "azure-core" "1.26.0" 80 false] := by
  refine ⟨by decide, by decide, by decide⟩

/-! ## Alpha pipeline (run_main_typescore.py)

The alpha package feed is modelled as a list of package names paired
with their published version list; a version carries its publish date as
an abstract totally ordered timestamp.  The pipeline partitions the
work into the round-1 bulk install and the isolated round-2 installs of
the packages in the static conflict table. -/

/-- One published feed version with its parsed publish date. -/
structure FeedVersion where
  version : String
  publishDate : Nat
deriving DecidableEq

/-- Python membership test of the character a in the version string. -/
def hasAlphaChar (s : String) : Bool :=
  s.data.contains 'a'

/-- The inner version walk of get_alpha_installs (lines 55-65): among
the alpha versions keep the one with the latest publish date, the first
on ties. -/
def pick_alpha (versions : List FeedVersion) : Option (Nat × String) :=
  versions.foldl
    (fun acc v =>
      if hasAlphaChar v.version then
        match acc with
        | none => some (v.publishDate, v.version)
        | some dw =>
            if dw.1 < v.publishDate then some (v.publishDate, v.version) else some dw
      else acc)
    none

/-- Python dict assignment on an insertion-ordered association list:
overwrite in place when the key exists, append otherwise. -/
def upsert (acc : List (String × String)) (n v : String) : List (String × String) :=
  if acc.any (fun p => p.1 == n) then
    acc.map (fun p => if p.1 == n then (n, v) else p)
  else acc ++ [(n, v)]

/-- The versions_to_install dict of get_alpha_installs: for each feed
package of the work set, its picked alpha version. -/
def versions_to_install (pkgNames : List String)
    (feed : List (String × List FeedVersion)) : List (String × String) :=
  feed.foldl
    (fun acc f =>
      if pkgNames.contains f.1 then
        match pick_alpha f.2 with
        | some dv => upsert acc f.1 dv.2
        | none => acc
      else acc)
    []

/-- The static conflict table DEPENDENCY_ISSUE_LIBRARIES of
run_main_typescore.py lines 31-37. -/
def DEPENDENCY_ISSUE_LIBRARIES : List (String × List String) :=
  [("azure-mixedreality-authentication", ["azure-mixedreality-remoterendering"]),
   ("azure-ai-ml",
    ["azure-storage-blob", "azure-storage-file-share", "azure-storage-file-datalake"]),
   ("azure-storage-blob-changefeed", ["azure-storage-blob"]),
   ("azure-storage-file-datalake", ["azure-storage-blob"]),
   ("azure-core",
    ["azure-core-experimental", "azure-core-tracing-opencensus",
     "azure-core-tracing-opentelemetry"])]

/-- The package names of the conflict table. -/
def dep_issue_names : List String :=
  DEPENDENCY_ISSUE_LIBRARIES.map Prod.fst

/-- Embeds the partition loop of get_alpha_installs (lines 67-75): a
conflict-table package goes to the isolated second round, every other
package to the bulk first round, both as name and version pairs. -/
def get_alpha_installs (pkgNames : List String)
    (feed : List (String × List FeedVersion)) :
    List (String × String) × List (String × String) :=
  (versions_to_install pkgNames feed).foldl
    (fun acc p =>
      if dep_issue_names.contains p.1 then (acc.1, acc.2 ++ [p])
      else (acc.1 ++ [p], acc.2))
    ([], [])

theorem get_alpha_installs_char (pkgNames : List String)
    (feed : List (String × List FeedVersion)) :
    get_alpha_installs pkgNames feed =
      ((versions_to_install pkgNames feed).filter
        (fun p => !(dep_issue_names.contains p.1)),
       (versions_to_install pkgNames feed).filter
        (fun p => dep_issue_names.contains p.1)) := by
  have haux : ∀ (l : List (String × String)) (acc : List (String × String) × List (String × String)),
      l.foldl
        (fun acc p =>
          if dep_issue_names.contains p.1 then (acc.1, acc.2 ++ [p])
          else (acc.1 ++ [p], acc.2)) acc =
        (acc.1 ++ l.filter (fun p => !(dep_issue_names.contains p.1)),
         acc.2 ++ l.filter (fun p => dep_issue_names.contains p.1)) := by
    intro l
    induction l with
    | nil => intro acc; simp
    | cons p t ih =>
        intro acc
        rw [List.foldl_cons]
        by_cases hq : dep_issue_names.contains p.1
        · simp only [hq, if_true, ih, List.filter_cons, Bool.not_true, if_false]
          simp
        · simp only [hq, if_false, ih, List.filter_cons, Bool.not_false, if_true]
          simp
  unfold get_alpha_installs
  rw [haux]
  simp

/-- C3 (amended, alpha pipeline): a conflict-table package never enters
the round-1 bulk install pairs, and every isolated round-2 entry is a
conflict-table package. -/
theorem c3_conflict_partition (pkgNames : List String)
    (feed : List (String × List FeedVersion)) (p : String)
    (hp : p ∈ dep_issue_names) :
    p ∉ (get_alpha_installs pkgNames feed).1.map Prod.fst ∧
    ∀ q v, (q, v) ∈ (get_alpha_installs pkgNames feed).2 → q ∈ dep_issue_names := by
  rw [get_alpha_installs_char]
  constructor
  · intro hmem
    rcases List.mem_map.mp hmem with ⟨q, hq, hq1⟩
    rcases List.mem_filter.mp hq with ⟨_, hq3⟩
    rw [hq1] at hq3
    rw [contains_true_of_mem hp] at hq3
    cases hq3
  · intro q v hmem
    rcases List.mem_filter.mp hmem with ⟨_, hq3⟩
    exact mem_of_contains_true hq3

/-- Witness for c3_conflict_partition: with azure-core alone in the
work set and one alpha feed version, the bulk round is empty and
azure-core sits in the isolated round. -/
theorem c3_conflict_partition_witness :
    "azure-core" ∉
      (get_alpha_installs ["azure-core"]
        [("azure-core", [⟨"1.26.0a1", 5⟩])]).1.map Prod.fst ∧
    ∀ q v, (q, v) ∈
        (get_alpha_installs ["azure-core"]
          [("azure-core", [⟨"1.26.0a1", 5⟩])]).2 → q ∈ dep_issue_names :=
  c3_conflict_partition ["azure-core"] [("azure-core", [⟨"1.26.0a1", 5⟩])]
    "azure-core" (by decide)

/-- C3 counterexample: in the released pipeline the conflict-table
package azure-ai-ml, needing recompute, is put into the round-1 bulk
install list, so the claim fails for that pipeline. -/
theorem c3_counterexample :
    "azure-ai-ml" ∈ dep_issue_names ∧
    "azure-ai-ml" ∈
      ((get_released_installs [("azure-ai-ml", "1.5.0b1")] (fun _ => none)).2.map
        Prod.fst) := by
  refine ⟨by decide, by decide⟩

/-! ## Two-round ordering (run_main_typescore.py main_typescore_function,
lines 78-100)

The run is modelled as the ordered list of environment events it
issues: the bulk install, the round-1 checker invocations, then per
conflict-table package the uninstall of its recorded dependencies, its
isolated install and its checker invocation.  none models the KeyError
raised when a conflict-table package has no picked alpha version. -/

/-- One observable event of a main-pipeline run. -/
inductive MEvent where
  | install (args : List String)
  | uninstall (deps : List String)
  | check (package : String)
deriving DecidableEq

/-- The pip arguments one alpha package contributes to an install
invocation (line 72 and line 74). -/
def alphaArgs (n v : String) : List String :=
  [mkSpec n v, "--extra-index-url",
   "https://pkgs.dev.azure.com/azure-sdk/public/_packaging/azure-sdk-for-python/pypi/simple",
   "--pre"]

/-- Monadic map over Option, failing when any element fails. -/
def optMapM {α β : Type} (g : α → Option β) : List α → Option (List β)
  | [] => some []
  | a :: l => (g a).bind (fun b => (optMapM g l).map (fun bs => b :: bs))

/-- The round-2 block of one conflict-table package: uninstall its
recorded dependencies, install it alone, check it. -/
def roundTwoBlock (pd : String × List String) (v : String) : List MEvent :=
  [MEvent.uninstall pd.2, MEvent.install (alphaArgs pd.1 v ++ [pyrightSpec]),
   MEvent.check pd.1]

/-- Embeds main_typescore_function: the bulk round-1 install (skipped
when empty, the pyright pin appended), the round-1 scoring loop over the
work set skipping conflict-table packages, then the round-2 loop over
the conflict table in table order.  none models the KeyError on a
conflict-table package missing from second_round. -/
def main_trace (pkgs : List String) (feed : List (String × List FeedVersion)) :
    Option (List MEvent) :=
  (optMapM
      (fun pd => (((get_alpha_installs pkgs feed).2).lookup pd.1).map (roundTwoBlock pd))
      DEPENDENCY_ISSUE_LIBRARIES).map
    (fun blocks =>
      (if ((get_alpha_installs pkgs feed).1.flatMap (fun p => alphaArgs p.1 p.2)).isEmpty
       then ([] : List MEvent)
       else [MEvent.install ((get_alpha_installs pkgs feed).1.flatMap
          (fun p => alphaArgs p.1 p.2) ++ [pyrightSpec])]) ++
      (pkgs.filter (fun n => !(dep_issue_names.contains n))).map MEvent.check ++
      blocks.flatten)

theorem optMapM_lookup_flatten (sr : List (String × String)) :
    ∀ (L : List (String × List String)) (bs : List (List MEvent)),
      optMapM (fun pd => ((sr.lookup pd.1).map (roundTwoBlock pd))) L = some bs →
      bs.flatten = L.flatMap (fun pd => roundTwoBlock pd ((sr.lookup pd.1).getD "")) := by
  intro L
  induction L with
  | nil =>
      intro bs h
      cases h
      simp
  | cons a l ih =>
      intro bs h
      simp only [optMapM] at h
      cases hga : sr.lookup a.1 with
      | none =>
          rw [hga] at h
          simp at h
      | some v =>
          rw [hga] at h
          simp only [Option.map_some', Option.some_bind] at h
          cases hrec : optMapM (fun pd => ((sr.lookup pd.1).map (roundTwoBlock pd))) l with
          | none => rw [hrec] at h; simp at h
          | some bs2 =>
              rw [hrec] at h
              simp only [Option.map_some'] at h
              have hbs := (Option.some.injEq _ _ |>.mp h)
              rw [← hbs]
              simp only [List.flatten_cons, List.flatMap_cons]
              rw [ih bs2 hrec, hga]
              simp

/-- C9: in every completed main-pipeline run the trace is the bulk
round-1 install (when nonempty), then the checker invocation of every
non-conflict work-set package, then for each conflict-table package in
table order its uninstall, isolated install and check, consecutively and
without interleaving. -/
theorem c9_two_round_order (pkgs : List String) (feed : List (String × List FeedVersion))
    (tr : List MEvent) (h : main_trace pkgs feed = some tr) :
    ∃ (r1 : List MEvent) (ver : String → String),
      (r1 = ([] : List MEvent) ∨ ∃ args, r1 = [MEvent.install args]) ∧
      tr = r1 ++ (pkgs.filter (fun n => !(dep_issue_names.contains n))).map MEvent.check ++
        DEPENDENCY_ISSUE_LIBRARIES.flatMap
          (fun pd => [MEvent.uninstall pd.2,
            MEvent.install (alphaArgs pd.1 (ver pd.1) ++ [pyrightSpec]),
            MEvent.check pd.1]) := by
  unfold main_trace at h
  cases hopt : optMapM
      (fun pd => (((get_alpha_installs pkgs feed).2).lookup pd.1).map (roundTwoBlock pd))
      DEPENDENCY_ISSUE_LIBRARIES with
  | none => rw [hopt] at h; cases h
  | some blocks =>
      rw [hopt, Option.map_some'] at h
      have htr := (Option.some.injEq _ _ |>.mp h)
      refine ⟨(if ((get_alpha_installs pkgs feed).1.flatMap (fun p => alphaArgs p.1 p.2)).isEmpty
          then ([] : List MEvent)
          else [MEvent.install ((get_alpha_installs pkgs feed).1.flatMap
            (fun p => alphaArgs p.1 p.2) ++ [pyrightSpec])]),
        (fun name => (((get_alpha_installs pkgs feed).2).lookup name).getD ""), ?_, ?_⟩
      · by_cases hemp : ((get_alpha_installs pkgs feed).1.flatMap
            (fun p => alphaArgs p.1 p.2)).isEmpty
        · rw [if_pos hemp]; exact Or.inl rfl
        · rw [if_neg hemp]; exact Or.inr ⟨_, rfl⟩
      · rw [← htr]
        rw [optMapM_lookup_flatten _ DEPENDENCY_ISSUE_LIBRARIES blocks hopt]
        rfl

/-- Witness for c9_two_round_order: the five conflict-table packages as
work set, each with one alpha feed version, give the empty bulk round
followed by the five isolated blocks in table order. -/
theorem c9_two_round_order_witness :
    ∃ (r1 : List MEvent) (ver : String → String),
      (r1 = ([] : List MEvent) ∨ ∃ args, r1 = [MEvent.install args]) ∧
      DEPENDENCY_ISSUE_LIBRARIES.flatMap
          (fun pd => [MEvent.uninstall pd.2,
            MEvent.install (alphaArgs pd.1 "1.0.0a1" ++ [pyrightSpec]),
            MEvent.check pd.1]) =
        r1 ++ (dep_issue_names.filter (fun n => !(dep_issue_names.contains n))).map
            MEvent.check ++
        DEPENDENCY_ISSUE_LIBRARIES.flatMap
          (fun pd => [MEvent.uninstall pd.2,
            MEvent.install (alphaArgs pd.1 (ver pd.1) ++ [pyrightSpec]),
            MEvent.check pd.1]) :=
  c9_two_round_order dep_issue_names
    (dep_issue_names.map (fun n => (n, [⟨"1.0.0a1", 0⟩])))
    (DEPENDENCY_ISSUE_LIBRARIES.flatMap
      (fun pd => [MEvent.uninstall pd.2,
        MEvent.install (alphaArgs pd.1 "1.0.0a1" ++ [pyrightSpec]),
        MEvent.check pd.1]))
    (by decide)

end TypeScore
